import Mathlib

/-!
Verification of the accessibility-dashboard site-list aggregation and
scoring pipeline.

The development shallowly embeds the TypeScript sources:
the `Violation` record (`models/violation.model`), the scan records
served by the remote data service, the severity scorer `siteStatus`
(`site.component.ts`, with its `badge-` class variant), and the
`SiteDataService` / `SiteListComponent` aggregation code, including the
caching variant of `SiteDataService.getSiteData` that builds `Site`
records inside a hand-rolled `Observable`.

JavaScript numbers that are only ever non-negative integer counts are
modelled as `Nat`; epoch timestamps as `Int`; a JavaScript `Date` object
is distinguished from a raw epoch-seconds number by the `Timestamp`
inductive.  Asynchronous execution is modelled by an explicit event
trace: subscribing runs the synchronous body (which only registers HTTP
callbacks), and the pending fetches resolve afterwards in an arbitrary
order.
-/

/-- One accessibility violation, as in `models/violation.model.ts`:
fields `description`, `nodes`, `impact`, `helpUrl`, `tags`, `id`,
`help`.  The per-node details are opaque to the scorer and are kept as
strings. -/
structure Violation where
  description : String
  nodes : List String
  impact : String
  helpUrl : String
  tags : List String
  id : String
  help : String
deriving DecidableEq, Repr

/-- A timestamp value as it flows through the JavaScript code: either the
raw epoch-seconds number returned by the remote service, or a `Date`
object (identified by its milliseconds-since-epoch value) produced by
`convertDate`. -/
inductive Timestamp where
  | epochSeconds (n : Int)
  | date (ms : Int)
deriving DecidableEq, Repr

/-- JavaScript `ToNumber` coercion of a timestamp value: a raw number is
itself, a `Date` coerces to its milliseconds value. -/
def Timestamp.toNumber : Timestamp → Int
  | Timestamp.epochSeconds n => n
  | Timestamp.date ms => ms

/-- One historical scan as served by the scan-history endpoint:
`{violations: array, last_updated: number}` (epoch seconds). -/
structure ScanRecord where
  violations : List Violation
  last_updated : Timestamp
deriving DecidableEq, Repr

/-- The violation counter object built by `siteStatus`:
`{'critical': 0, 'serious': 0, 'moderate': 0, 'minor': 0}`. -/
structure Counter where
  critical : Nat
  serious : Nat
  moderate : Nat
  minor : Nat
deriving DecidableEq, Repr

/-- One iteration of the `violations.forEach` loop in `siteStatus`:
`counter[impact] += 1`.  When `impact` is one of the four keys the
matching bucket is incremented; any other `impact` writes a junk
property on the JavaScript object (`undefined + 1` is `NaN`) and leaves
the four buckets that are later read unchanged. -/
def tallyImpact (c : Counter) (impact : String) : Counter :=
  if impact = "critical" then { c with critical := c.critical + 1 }
  else if impact = "serious" then { c with serious := c.serious + 1 }
  else if impact = "moderate" then { c with moderate := c.moderate + 1 }
  else if impact = "minor" then { c with minor := c.minor + 1 }
  else c

/-- The counter after the whole `violations.forEach(...)` loop. -/
def tally (violations : List Violation) : Counter :=
  violations.foldl (fun c v => tallyImpact c v.impact) ⟨0, 0, 0, 0⟩

/-- The weighted sum read off a counter:
`15 * counter['critical'] + 9 * counter['serious'] + 5 * counter['moderate'] + 1 * counter['minor']`. -/
def weightedSum (c : Counter) : Nat :=
  15 * c.critical + 9 * c.serious + 5 * c.moderate + 1 * c.minor

/-- The raw (pre-clamp) score computed by `siteStatus`. -/
def rawScore (violations : List Violation) : Nat :=
  weightedSum (tally violations)

/-- The numeric severity score: the weighted sum after the clamp
`score = (score >= 100) ? 100 : score;`. -/
def siteScore (violations : List Violation) : Nat :=
  let score := rawScore violations
  if score ≥ 100 then 100 else score

/-- The primary variant of `SiteComponent.siteStatus`
(`src/app/site-list/site/site.component.ts`), acting on
`site.data.violations`: empty list short-circuits to `'label-info'`,
otherwise the clamped score is bucketed into `'label-danger'`,
`'label-warning'`, `'label-success'`. -/
def siteStatus (violations : List Violation) : String :=
  if violations.length = 0 then "label-info"
  else
    let score := siteScore violations
    if score ≥ 60 then "label-danger"
    else if score < 60 ∧ score ≥ 20 then "label-warning"
    else "label-success"

/-- The `badge-` class variant of `siteStatus` (part_008): identical
arithmetic, `'badge-info'` / `'badge-danger'` / `'badge-warning'` /
`'badge-success'` class names. -/
def siteStatusBadge (violations : List Violation) : String :=
  if violations.length = 0 then "badge-info"
  else
    let score := siteScore violations
    if score ≥ 60 then "badge-danger"
    else if score < 60 ∧ score ≥ 20 then "badge-warning"
    else "badge-success"

/-- A convenience constructor for a violation whose only relevant field
is its `impact`. -/
def mkViolation (impact : String) : Violation :=
  ⟨"", [], impact, "", [], "", ""⟩

example : siteStatus [] = "label-info" := by decide
example : siteScore [mkViolation "critical"] = 15 := by decide
example : siteStatus [mkViolation "critical"] = "label-success" := by decide
example : siteScore (List.replicate 5 (mkViolation "critical")) = 75 := by decide
example : siteStatus (List.replicate 5 (mkViolation "critical")) = "label-danger" := by decide
example : siteScore (List.replicate 7 (mkViolation "critical")) = 100 := by decide
example : siteScore [mkViolation "bogus"] = 0 := by decide
example : siteStatus [mkViolation "bogus"] = "label-success" := by decide

/-- The weight a single violation contributes to the raw score, read off
the four counter buckets: 15 / 9 / 5 / 1 for the recognized impacts,
nothing for any other impact string. -/
def impactWeight (impact : String) : Nat :=
  if impact = "critical" then 15
  else if impact = "serious" then 9
  else if impact = "moderate" then 5
  else if impact = "minor" then 1
  else 0

/-- Number of violations in a list whose `impact` equals a given string. -/
def countImpact (violations : List Violation) (impact : String) : Nat :=
  violations.countP (fun v => decide (v.impact = impact))

/-- Whether an impact string is one of the four recognized buckets. -/
def recognizedImpact (impact : String) : Bool :=
  impact == "critical" || impact == "serious" || impact == "moderate" || impact == "minor"

lemma weightedSum_tallyImpact (c : Counter) (s : String) :
    weightedSum (tallyImpact c s) = weightedSum c + impactWeight s := by
  unfold tallyImpact impactWeight weightedSum
  split_ifs <;> simp <;> ring

lemma weightedSum_foldl (l : List Violation) :
    ∀ c : Counter, weightedSum (l.foldl (fun c v => tallyImpact c v.impact) c)
      = weightedSum c + (l.map (fun v => impactWeight v.impact)).sum := by
  induction l with
  | nil => intro c; simp
  | cons v t ih =>
    intro c
    simp only [List.foldl_cons, List.map_cons, List.sum_cons]
    rw [ih, weightedSum_tallyImpact]
    omega

lemma rawScore_eq_sum (l : List Violation) :
    rawScore l = (l.map (fun v => impactWeight v.impact)).sum := by
  unfold rawScore tally
  rw [weightedSum_foldl]
  simp [weightedSum]

lemma countImpact_cons (v : Violation) (t : List Violation) (s : String) :
    countImpact (v :: t) s = countImpact t s + (if v.impact = s then 1 else 0) := by
  simp [countImpact, List.countP_cons]

lemma sum_weights_eq_counts (l : List Violation) :
    (l.map (fun v => impactWeight v.impact)).sum
      = 15 * countImpact l "critical" + 9 * countImpact l "serious"
        + 5 * countImpact l "moderate" + 1 * countImpact l "minor" := by
  induction l with
  | nil => simp [countImpact]
  | cons v t ih =>
    simp only [List.map_cons, List.sum_cons, countImpact_cons, ih]
    unfold impactWeight
    by_cases h1 : v.impact = "critical"
    · simp [h1]; ring
    by_cases h2 : v.impact = "serious"
    · simp [h1, h2]; ring
    by_cases h3 : v.impact = "moderate"
    · simp [h1, h2, h3]; ring
    by_cases h4 : v.impact = "minor"
    · simp [h1, h2, h3, h4]; ring
    simp [h1, h2, h3, h4]

lemma siteScore_eq_min (l : List Violation) : siteScore l = min (rawScore l) 100 := by
  simp only [siteScore]
  split_ifs with h <;> omega

/-- C1: for every sequence of violations, the severity score computed by
the scorer equals the weighted sum `15 * #critical + 9 * #serious +
5 * #moderate + 1 * #minor` of the per-impact violation counts, clamped
to 100 when it exceeds 100; violations whose impact is none of the four
recognized values contribute nothing to the sum. -/
theorem siteScore_eq_weighted_counts (l : List Violation) :
    siteScore l = min (15 * countImpact l "critical" + 9 * countImpact l "serious"
      + 5 * countImpact l "moderate" + 1 * countImpact l "minor") 100 := by
  rw [siteScore_eq_min, rawScore_eq_sum, sum_weights_eq_counts]

/-- C6: the numeric severity score always lies in the interval [0, 100]. -/
theorem siteScore_bounded (l : List Violation) : 0 ≤ siteScore l ∧ siteScore l ≤ 100 := by
  simp only [siteScore]
  split_ifs with h <;> omega

/-- Modelled from the spec: the category table of §4.4, written exactly
in the spec's words (`info` / `danger` / `warning` / `success` with the
fixed thresholds), for comparison with the source's `siteStatus`. -/
def specCategory (violations : List Violation) : String :=
  let score := siteScore violations
  if score = 0 ∧ violations.length = 0 then "info"
  else if score ≥ 60 then "danger"
  else if 20 ≤ score ∧ score < 60 then "warning"
  else "success"

/-- C2: the scorer's display category follows the fixed threshold table:
the empty violation list yields the `info` category, otherwise score ≥ 60
yields `danger`, 20 ≤ score < 60 yields `warning`, and score < 20 yields
`success`; `siteStatus` returns exactly the `label-` prefixed class name
of that category. -/
theorem siteStatus_refines_specCategory (violations : List Violation) :
    siteStatus violations = "label-" ++ specCategory violations := by
  by_cases h : violations.length = 0
  · have hv : violations = [] := by cases violations <;> simp_all
    subst hv; rfl
  · simp only [siteStatus, specCategory, h, and_false, if_false, if_neg h]
    split_ifs <;> first | rfl | omega

lemma impactWeight_eq_zero_of_not_recognized (s : String) (h : recognizedImpact s = false) :
    impactWeight s = 0 := by
  unfold recognizedImpact at h
  unfold impactWeight
  split_ifs with h1 h2 h3 h4 <;> simp_all

lemma sum_weights_filter_recognized (l : List Violation) :
    ((l.filter (fun v => recognizedImpact v.impact)).map (fun v => impactWeight v.impact)).sum
      = (l.map (fun v => impactWeight v.impact)).sum := by
  induction l with
  | nil => rfl
  | cons v t ih =>
    by_cases h : recognizedImpact v.impact = true
    · simp [List.filter_cons, h, ih]
    · have h0 : recognizedImpact v.impact = false := by simpa using h
      simp [List.filter_cons, h0, ih, impactWeight_eq_zero_of_not_recognized _ h0]

/-- C8: the severity scorer is a total function: a violation with an
unrecognized impact is silently excluded from the score (scoring the
list is the same as scoring only its recognized-impact violations), and
the empty violation list yields score 0 with the zero-score class
`label-info`. -/
theorem siteScore_total_and_unrecognized_excluded :
    (∀ l : List Violation, siteScore l = siteScore (l.filter (fun v => recognizedImpact v.impact)))
      ∧ siteScore [] = 0 ∧ siteStatus [] = "label-info" := by
  refine ⟨fun l => ?_, rfl, rfl⟩
  simp only [siteScore_eq_min, rawScore_eq_sum, sum_weights_filter_recognized]

/-- C9: on every input, `siteStatus` returns one of the four CSS class
names `label-info` / `label-danger` / `label-warning` / `label-success`
(and the part_008 variant one of the `badge-` class names), never a bare
category name `info` / `success` / `warning` / `danger`. -/
theorem siteStatus_returns_class_names (l : List Violation) :
    (siteStatus l = "label-info" ∨ siteStatus l = "label-danger"
        ∨ siteStatus l = "label-warning" ∨ siteStatus l = "label-success")
      ∧ (siteStatusBadge l = "badge-info" ∨ siteStatusBadge l = "badge-danger"
        ∨ siteStatusBadge l = "badge-warning" ∨ siteStatusBadge l = "badge-success")
      ∧ siteStatus l ≠ "info" ∧ siteStatus l ≠ "danger"
      ∧ siteStatus l ≠ "warning" ∧ siteStatus l ≠ "success"
      ∧ siteStatusBadge l ≠ "info" ∧ siteStatusBadge l ≠ "danger"
      ∧ siteStatusBadge l ≠ "warning" ∧ siteStatusBadge l ≠ "success" := by
  simp only [siteStatus, siteStatusBadge]
  split_ifs <;> decide

lemma sum_map_set (l : List Violation) (i : Nat) (v : Violation) (h : i < l.length) :
    ((l.set i v).map (fun x => impactWeight x.impact)).sum
        + impactWeight ((l.getD i (mkViolation "")).impact)
      = (l.map (fun x => impactWeight x.impact)).sum + impactWeight v.impact := by
  induction l generalizing i with
  | nil => simp at h
  | cons a t ih =>
    cases i with
    | zero => simp [List.set]; omega
    | succ n =>
      simp only [List.set, List.map_cons, List.sum_cons, List.getD_cons_succ]
      have := ih n (by simpa using h)
      omega

/-- Modelled from the spec: the severity order on recognized impact
strings, `minor < moderate < serious < critical`, as a rank; impacts
outside the closed enumeration have no rank. -/
def severityRank (impact : String) : Option Nat :=
  if impact = "minor" then some 0
  else if impact = "moderate" then some 1
  else if impact = "serious" then some 2
  else if impact = "critical" then some 3
  else none

lemma severityRank_cases (s : String) (a : Nat) (h : severityRank s = some a) :
    (s = "minor" ∧ a = 0) ∨ (s = "moderate" ∧ a = 1)
      ∨ (s = "serious" ∧ a = 2) ∨ (s = "critical" ∧ a = 3) := by
  unfold severityRank at h
  split_ifs at h <;> simp_all

lemma impactWeight_lt_of_rank_lt (s t : String) (a b : Nat)
    (hs : severityRank s = some a) (ht : severityRank t = some b) (hab : a < b) :
    impactWeight s < impactWeight t := by
  rcases severityRank_cases s a hs with ⟨h1, h2⟩ | ⟨h1, h2⟩ | ⟨h1, h2⟩ | ⟨h1, h2⟩ <;>
    rcases severityRank_cases t b ht with ⟨h3, h4⟩ | ⟨h3, h4⟩ | ⟨h3, h4⟩ | ⟨h3, h4⟩ <;>
    subst_vars <;> revert hab <;> decide

/-- C7: replacing the violation at any position of a violation list with
one of strictly higher impact severity (in the order minor < moderate <
serious < critical) never decreases the computed score. -/
theorem siteScore_monotone_in_impact (l : List Violation) (i : Nat) (v : Violation)
    (a b : Nat) (hi : i < l.length)
    (ha : severityRank ((l.getD i (mkViolation "")).impact) = some a)
    (hb : severityRank v.impact = some b)
    (hab : a < b) :
    siteScore l ≤ siteScore (l.set i v) := by
  rw [siteScore_eq_min, siteScore_eq_min, rawScore_eq_sum, rawScore_eq_sum]
  have hw := impactWeight_lt_of_rank_lt _ _ _ _ ha hb hab
  have hs := sum_map_set l i v hi
  omega

/-- Witness for C7 at a concrete input: a single `minor` violation
replaced by a `critical` one. -/
theorem siteScore_monotone_in_impact_witness :
    (0 : Nat) < [mkViolation "minor"].length
      ∧ severityRank (([mkViolation "minor"].getD 0 (mkViolation "")).impact) = some 0
      ∧ severityRank (mkViolation "critical").impact = some 3
      ∧ siteScore [mkViolation "minor"] ≤ siteScore ([mkViolation "minor"].set 0 (mkViolation "critical")) :=
  ⟨by decide, by decide, by decide,
    siteScore_monotone_in_impact [mkViolation "minor"] 0 (mkViolation "critical") 0 3
      (by decide) (by decide) (by decide) (by decide)⟩

/-- One entry of the site manifest (`assets/sites.json`): `{name, url}`. -/
structure SiteDesc where
  name : String
  url : String
deriving DecidableEq, Repr

/-- Modelled from the spec: the aggregated `Site` view-model class
(`models/site.model`), whose class file is not in the repository
snapshot.  Its shape follows §3 of the spec and the constructor call
`new Site(element['name'], element['url'], data, results)` in the
caching `SiteDataService.getSiteData`: descriptor name and url, the
reduced latest scan `data`, and the full fetched `history`. -/
structure Site where
  name : String
  url : String
  data : ScanRecord
  history : List ScanRecord
deriving DecidableEq, Repr

/-- The three-argument `Site` shape used by the part_004
`SiteListComponent` variant, constructed as `new Site(name, url, data)`
with no history argument. -/
structure SiteP3 where
  name : String
  url : String
  data : ScanRecord
deriving DecidableEq, Repr

/-- `SiteDataService.convertDate`: `new Date(pythonDate * 1000)`,
turning an epoch-seconds number into a `Date` object. -/
def convertDate (pythonDate : Int) : Timestamp :=
  Timestamp.date (pythonDate * 1000)

/-- Body of the per-site success callback in the caching variant of
`SiteDataService.getSiteData` (part_001):
`current = results[results.length - 1]`, then the in-place mutation
`current['last_updated'] = this.convertDate(current['last_updated'])`
of the fetched array's last element, then
`new Site(name, url, current, results)` — so the site's `data` and the
last entry of its `history` are the same mutated record.  On an empty
response the indexing yields `undefined` and the mutation throws, so no
site is produced (`none`). -/
def buildSiteCached (name url : String) (results : List ScanRecord) : Option Site :=
  if h : results = [] then none
  else
    let current := results.getLast h
    let current' := { current with last_updated := convertDate current.last_updated.toNumber }
    some { name := name, url := url, data := current',
           history := results.set (results.length - 1) current' }

/-- Body of the per-site success callback in the part_004
`SiteListComponent.getSiteData`: `current = results[0]`, the in-place
`last_updated` conversion, then `new Site(name, url, data)`.  On an
empty response `results[0]` is `undefined` and the mutation throws
(`none`). -/
def buildSiteFirst (name url : String) (results : List ScanRecord) : Option SiteP3 :=
  match results with
  | [] => none
  | current :: _ =>
    some { name := name, url := url,
           data := { current with last_updated := convertDate current.last_updated.toNumber } }

/-- A scan record with no violations at epoch second 1000. -/
def scanEarly : ScanRecord := ⟨[], Timestamp.epochSeconds 1000⟩

/-- A scan record with one critical violation at epoch second 2000. -/
def scanLate : ScanRecord := ⟨[mkViolation "critical"], Timestamp.epochSeconds 2000⟩

/-- A default scan record, standing for JavaScript `undefined` in
out-of-range array reads. -/
def defaultScan : ScanRecord := ⟨[], Timestamp.epochSeconds 0⟩

/-- C3 counterexample: on the two-element history `[scanEarly, scanLate]`
the part_004 pipeline variant scores the FIRST element — the produced
site's `data.violations` is `scanEarly`'s empty list, not the last
element's violations — so the scored latest scan is not the last element
of the history returned by the service. -/
theorem latestScan_not_last_in_part004 :
    ((buildSiteFirst "a" "u1" [scanEarly, scanLate]).map fun s => s.data.violations)
        = some scanEarly.violations
      ∧ ((buildSiteFirst "a" "u1" [scanEarly, scanLate]).map fun s => s.data.violations)
        ≠ some (([scanEarly, scanLate].getLastD defaultScan).violations) := by
  decide

lemma length_sub_one_lt (l : List ScanRecord) (h : l ≠ []) : l.length - 1 < l.length := by
  cases l with
  | nil => simp at h
  | cons a t => simp

lemma getLast_eq_getD (l : List ScanRecord) (h : l ≠ []) :
    l.getLast h = l.getD (l.length - 1) defaultScan := by
  rw [List.getLast_eq_getElem, List.getD_eq_getElem?_getD,
    List.getElem?_eq_getElem (length_sub_one_lt l h)]
  rfl

lemma buildSiteCached_eq (name url : String) (results : List ScanRecord) (h : results ≠ []) :
    buildSiteCached name url results
      = some { name := name, url := url,
               data := { results.getLast h with
                          last_updated := convertDate (results.getLast h).last_updated.toNumber },
               history := results.set (results.length - 1)
                 { results.getLast h with
                    last_updated := convertDate (results.getLast h).last_updated.toNumber } } := by
  unfold buildSiteCached
  rw [dif_neg h]

/-- C3 (amended): in the caching `SiteDataService.getSiteData` variant
the scored scan is the LAST element of the fetched history and the
history is kept in response order (every entry except the last is
unchanged, the last differs only in its converted `last_updated`), while
the part_004 component variant scores the FIRST element instead. -/
theorem latestScan_is_last_in_caching_service (name url : String) (results : List ScanRecord)
    (h : results ≠ []) :
    ∃ site, buildSiteCached name url results = some site
      ∧ site.history.length = results.length
      ∧ (∀ i, i + 1 < results.length → site.history.getD i defaultScan = results.getD i defaultScan)
      ∧ site.data = site.history.getD (results.length - 1) defaultScan
      ∧ site.data.violations = (results.getLast h).violations
      ∧ site.data.last_updated = convertDate (results.getLast h).last_updated.toNumber := by
  refine ⟨_, buildSiteCached_eq name url results h, ?_, ?_, ?_, rfl, rfl⟩
  · simp
  · intro i hi
    have hne : results.length - 1 ≠ i := by omega
    rw [List.getD_eq_getElem?_getD, List.getElem?_set_ne hne, ← List.getD_eq_getElem?_getD]
  · rw [List.getD_eq_getElem?_getD,
      List.getElem?_set_eq_of_lt _ (length_sub_one_lt results h)]
    rfl

/-- Witness for the amended C3 at the concrete history
`[scanEarly, scanLate]`. -/
theorem latestScan_is_last_in_caching_service_witness :
    [scanEarly, scanLate] ≠ ([] : List ScanRecord)
      ∧ ∃ site, buildSiteCached "a" "u1" [scanEarly, scanLate] = some site
        ∧ site.history.length = [scanEarly, scanLate].length
        ∧ (∀ i, i + 1 < [scanEarly, scanLate].length
            → site.history.getD i defaultScan = [scanEarly, scanLate].getD i defaultScan)
        ∧ site.data = site.history.getD ([scanEarly, scanLate].length - 1) defaultScan
        ∧ site.data.violations = ([scanEarly, scanLate].getLast (by decide)).violations
        ∧ site.data.last_updated
            = convertDate ([scanEarly, scanLate].getLast (by decide)).last_updated.toNumber :=
  ⟨by decide, latestScan_is_last_in_caching_service "a" "u1" [scanEarly, scanLate] (by decide)⟩

lemma getD_mem_of_lt (l : List ScanRecord) (i : Nat) (h : i < l.length) :
    l.getD i defaultScan ∈ l := by
  rw [List.getD_eq_getElem?_getD, List.getElem?_eq_getElem h]
  exact List.getElem_mem h

/-- C10: the caching service's site construction mutates the fetched
results array in place: the produced history is the fetched array with
its final entry's `last_updated` overwritten by a `Date` object carrying
the raw epoch seconds times 1000, the scored `data` record aliases that
same final history entry, so the history handed to presentation no
longer carries a raw epoch-seconds timestamp in its final entry while
every earlier entry still does. -/
theorem buildSiteCached_mutates_last_timestamp (name url : String) (results : List ScanRecord)
    (h : results ≠ [])
    (hraw : ∀ r ∈ results, ∃ n, r.last_updated = Timestamp.epochSeconds n) :
    ∃ site, buildSiteCached name url results = some site
      ∧ site.data = site.history.getD (results.length - 1) defaultScan
      ∧ site.data.last_updated = Timestamp.date ((results.getLast h).last_updated.toNumber * 1000)
      ∧ (∀ n, (site.history.getD (results.length - 1) defaultScan).last_updated
          ≠ Timestamp.epochSeconds n)
      ∧ (∀ i, i + 1 < results.length →
          site.history.getD i defaultScan = results.getD i defaultScan
            ∧ ∃ n, (site.history.getD i defaultScan).last_updated = Timestamp.epochSeconds n) := by
  obtain ⟨site, hsite, hlen, hpre, hdata, _, hts⟩ :=
    latestScan_is_last_in_caching_service name url results h
  refine ⟨site, hsite, hdata, by rw [hts]; rfl, ?_, ?_⟩
  · intro n
    rw [← hdata, hts]
    simp [convertDate]
  · intro i hi
    refine ⟨hpre i hi, ?_⟩
    rw [hpre i hi]
    exact hraw _ (getD_mem_of_lt results i (by omega))

/-- Witness for C10 at the concrete fetched history
`[scanEarly, scanLate]`, whose entries are raw epoch seconds. -/
theorem buildSiteCached_mutates_last_timestamp_witness :
    [scanEarly, scanLate] ≠ ([] : List ScanRecord)
      ∧ ∃ site, buildSiteCached "a" "u1" [scanEarly, scanLate] = some site
        ∧ site.data = site.history.getD ([scanEarly, scanLate].length - 1) defaultScan
        ∧ site.data.last_updated
            = Timestamp.date (([scanEarly, scanLate].getLast (by decide)).last_updated.toNumber * 1000)
        ∧ (∀ n, (site.history.getD ([scanEarly, scanLate].length - 1) defaultScan).last_updated
            ≠ Timestamp.epochSeconds n)
        ∧ (∀ i, i + 1 < [scanEarly, scanLate].length →
            site.history.getD i defaultScan = [scanEarly, scanLate].getD i defaultScan
              ∧ ∃ n, (site.history.getD i defaultScan).last_updated = Timestamp.epochSeconds n) :=
  ⟨by decide,
    buildSiteCached_mutates_last_timestamp "a" "u1" [scanEarly, scanLate] (by decide)
      (by
        intro r hr
        rcases List.mem_cons.mp hr with h1 | h1
        · exact ⟨1000, by rw [h1]; rfl⟩
        · have h2 : r = scanLate := by simpa using h1
          exact ⟨2000, by rw [h2]; rfl⟩)⟩

/-- One observable event in the pipeline model: `next k` is
`observer.next(sites)` recorded together with the number of site records
the emitted array holds at emission time, `complete` is
`observer.complete()`, and `resolve name ok` is the arrival of the HTTP
response for one site's history fetch (`ok = false` when the fetch
errors). -/
inductive Ev where
  | next (count : Nat)
  | complete
  | resolve (name : String) (ok : Bool)
deriving DecidableEq, Repr

/-- The remote data service as seen by one aggregation pass: for each
site name, either the scan history it returns or `none` when that
fetch fails. -/
def FetchEnv : Type := String → Option (List ScanRecord)

/-- Resolution phase of the event loop: the per-site HTTP callbacks
registered by the subscribe body run one at a time, in an arbitrary
arrival order.  A successful response runs that site's success callback,
which builds the site and pushes it onto the shared `sites` array; a
failed fetch has no error callback in
`subscribe((results) => {...})`, so nothing is pushed for it and the
error is confined to its own event-loop task, leaving the other
callbacks unaffected. -/
def resolveFetches (env : FetchEnv) : List SiteDesc → List Site × List Ev → List Site × List Ev
  | [], acc => acc
  | el :: rest, (sites, evs) =>
    match env el.name with
    | some results =>
      match buildSiteCached el.name el.url results with
      | some site =>
        resolveFetches env rest (sites ++ [site], evs ++ [Ev.resolve el.name true])
      | none =>
        resolveFetches env rest (sites, evs ++ [Ev.resolve el.name true])
    | none => resolveFetches env rest (sites, evs ++ [Ev.resolve el.name false])

/-- The caching variant of `SiteDataService.getSiteData` (part_001) on a
cold cache, run to quiescence.  The subscribe body synchronously starts
one HTTP request per listed site (`siteList.forEach(... .subscribe(...))`
— no response callback can run during this synchronous loop), then
immediately stores the still-empty `sites` array in `_siteData`, emits
it via `observer.next(this._siteData)` and calls `observer.complete()`;
only afterwards do the pending fetches resolve.  `order` is the arrival
order of those responses, an arbitrary permutation of the manifest's
site list.  Returns the final contents of the `sites` array and the
full event trace. -/
def getSiteDataRun (order : List SiteDesc) (env : FetchEnv) : List Site × List Ev :=
  let sites : List Site := []
  let evs := [Ev.next sites.length, Ev.complete]
  resolveFetches env order (sites, evs)

/-- A fetch environment where site `a` answers with one scan and every
other fetch fails. -/
def demoEnv : FetchEnv :=
  fun s => if s = "a" then some [scanLate] else none

/-- C4: evaluating the pipeline model on a one-site list shows the
observable emitting the sites array while it is still empty, and
completing, before the single outstanding fetch has resolved — the
emission does not wait for the per-site fetches as the claim states. -/
theorem getSiteData_emits_before_fetches_resolve :
    (getSiteDataRun [⟨"a", "u1"⟩] demoEnv).2
      = [Ev.next 0, Ev.complete, Ev.resolve "a" true]
      ∧ (getSiteDataRun [⟨"a", "u1"⟩] demoEnv).1 ≠ [] := by
  decide

lemma resolveFetches_evs_mono (env : FetchEnv) (order : List SiteDesc) :
    ∀ (sites : List Site) (evs : List Ev) (e : Ev), e ∈ evs →
      e ∈ (resolveFetches env order (sites, evs)).2 := by
  induction order with
  | nil => intro sites evs e he; simpa [resolveFetches] using he
  | cons el rest ih =>
    intro sites evs e he
    cases henv : env el.name with
    | none =>
      simp only [resolveFetches, henv]
      exact ih _ _ _ (List.mem_append_left _ he)
    | some results =>
      cases hb : buildSiteCached el.name el.url results with
      | none =>
        simp only [resolveFetches, henv, hb]
        exact ih _ _ _ (List.mem_append_left _ he)
      | some site =>
        simp only [resolveFetches, henv, hb]
        exact ih _ _ _ (List.mem_append_left _ he)

lemma resolveFetches_sites_mono (env : FetchEnv) (order : List SiteDesc) :
    ∀ (sites : List Site) (evs : List Ev) (s : Site), s ∈ sites →
      s ∈ (resolveFetches env order (sites, evs)).1 := by
  induction order with
  | nil => intro sites evs s hs; simpa [resolveFetches] using hs
  | cons el rest ih =>
    intro sites evs s hs
    cases henv : env el.name with
    | none =>
      simp only [resolveFetches, henv]
      exact ih _ _ _ hs
    | some results =>
      cases hb : buildSiteCached el.name el.url results with
      | none =>
        simp only [resolveFetches, henv, hb]
        exact ih _ _ _ hs
      | some site =>
        simp only [resolveFetches, henv, hb]
        exact ih _ _ _ (List.mem_append_left _ hs)

lemma resolveFetches_mem_of_success (env : FetchEnv) (order : List SiteDesc)
    (el : SiteDesc) (results : List ScanRecord) (site : Site)
    (hel : el ∈ order) (henv : env el.name = some results)
    (hb : buildSiteCached el.name el.url results = some site) :
    ∀ (sites : List Site) (evs : List Ev), site ∈ (resolveFetches env order (sites, evs)).1 := by
  induction order with
  | nil => cases hel
  | cons a rest ih =>
    intro sites evs
    rcases List.mem_cons.mp hel with h | h
    · subst h
      simp only [resolveFetches, henv, hb]
      exact resolveFetches_sites_mono env rest _ _ _ (by simp)
    · cases ha : env a.name with
      | none =>
        simp only [resolveFetches, ha]
        exact ih h _ _
      | some r2 =>
        cases hb2 : buildSiteCached a.name a.url r2 with
        | none =>
          simp only [resolveFetches, ha, hb2]
          exact ih h _ _
        | some s2 =>
          simp only [resolveFetches, ha, hb2]
          exact ih h _ _

lemma resolveFetches_sound (env : FetchEnv) (order : List SiteDesc) :
    ∀ (sites : List Site) (evs : List Ev) (s : Site),
      s ∈ (resolveFetches env order (sites, evs)).1 →
        s ∈ sites ∨ ∃ el ∈ order, ∃ results, env el.name = some results
          ∧ buildSiteCached el.name el.url results = some s := by
  induction order with
  | nil =>
    intro sites evs s hs
    exact Or.inl (by simpa [resolveFetches] using hs)
  | cons a rest ih =>
    intro sites evs s hs
    cases ha : env a.name with
    | none =>
      simp only [resolveFetches, ha] at hs
      rcases ih _ _ _ hs with h | ⟨el, hel, r, h1, h2⟩
      · exact Or.inl h
      · exact Or.inr ⟨el, List.mem_cons_of_mem _ hel, r, h1, h2⟩
    | some r =>
      cases hb : buildSiteCached a.name a.url r with
      | none =>
        simp only [resolveFetches, ha, hb] at hs
        rcases ih _ _ _ hs with h | ⟨el, hel, rr, h1, h2⟩
        · exact Or.inl h
        · exact Or.inr ⟨el, List.mem_cons_of_mem _ hel, rr, h1, h2⟩
      | some s2 =>
        simp only [resolveFetches, ha, hb] at hs
        rcases ih _ _ _ hs with h | ⟨el, hel, rr, h1, h2⟩
        · rcases List.mem_append.mp h with h2 | h2
          · exact Or.inl h2
          · have hss : s = s2 := by simpa using h2
            exact Or.inr ⟨a, List.mem_cons_self _ _, r, ha, hss ▸ hb⟩
        · exact Or.inr ⟨el, List.mem_cons_of_mem _ hel, rr, h1, h2⟩

/-- C5: if exactly one per-site fetch fails while every other site's
fetch succeeds with a non-empty history, the aggregation still completes
and its final sites collection contains a record for every other site,
while every record in the collection comes from a site whose fetch
succeeded (so the failed site is omitted): the single failure neither
aborts the pipeline nor suppresses the successful sites' results, under
any arrival order of the responses. -/
theorem single_fetch_failure_tolerated (siteList order : List SiteDesc) (env : FetchEnv)
    (f : SiteDesc) (horder : order.Perm siteList)
    (hf : env f.name = none)
    (hok : ∀ el ∈ siteList, el ≠ f → ∃ results, env el.name = some results ∧ results ≠ []) :
    Ev.complete ∈ (getSiteDataRun order env).2
      ∧ (∀ el ∈ siteList, el ≠ f → ∃ results site, env el.name = some results
          ∧ buildSiteCached el.name el.url results = some site
          ∧ site ∈ (getSiteDataRun order env).1)
      ∧ (∀ site ∈ (getSiteDataRun order env).1,
          ∃ el ∈ siteList, el.name ≠ f.name ∧ env el.name ≠ none) := by
  refine ⟨?_, ?_, ?_⟩
  · exact resolveFetches_evs_mono env order _ _ _ (by simp [getSiteDataRun])
  · intro el hel hne
    obtain ⟨results, hr, hrne⟩ := hok el hel hne
    obtain ⟨site, hsite⟩ : ∃ site, buildSiteCached el.name el.url results = some site :=
      ⟨_, buildSiteCached_eq el.name el.url results hrne⟩
    refine ⟨results, site, hr, hsite, ?_⟩
    exact resolveFetches_mem_of_success env order el results site
      (horder.mem_iff.mpr hel) hr hsite _ _
  · intro site hsite
    rcases resolveFetches_sound env order _ _ _ hsite with h | ⟨el, hel, r, h1, h2⟩
    · simp at h
    · refine ⟨el, horder.mem_iff.mp hel, ?_, by simp [h1]⟩
      intro heq
      rw [heq, hf] at h1
      cases h1

/-- Witness for C5 at a concrete two-site manifest where site `b`'s
fetch fails and site `a`'s succeeds. -/
theorem single_fetch_failure_tolerated_witness :
    Ev.complete ∈ (getSiteDataRun [⟨"a", "u1"⟩, ⟨"b", "u2"⟩] demoEnv).2
      ∧ (∀ el ∈ [(⟨"a", "u1"⟩ : SiteDesc), ⟨"b", "u2"⟩], el ≠ (⟨"b", "u2"⟩ : SiteDesc)
          → ∃ results site, demoEnv el.name = some results
            ∧ buildSiteCached el.name el.url results = some site
            ∧ site ∈ (getSiteDataRun [⟨"a", "u1"⟩, ⟨"b", "u2"⟩] demoEnv).1)
      ∧ (∀ site ∈ (getSiteDataRun [⟨"a", "u1"⟩, ⟨"b", "u2"⟩] demoEnv).1,
          ∃ el ∈ [(⟨"a", "u1"⟩ : SiteDesc), ⟨"b", "u2"⟩],
            el.name ≠ (⟨"b", "u2"⟩ : SiteDesc).name ∧ demoEnv el.name ≠ none) :=
  single_fetch_failure_tolerated [⟨"a", "u1"⟩, ⟨"b", "u2"⟩] [⟨"a", "u1"⟩, ⟨"b", "u2"⟩]
    demoEnv ⟨"b", "u2"⟩ (List.Perm.refl _) (by decide)
    (by
      intro el hel hne
      rcases List.mem_cons.mp hel with h | h
      · subst h
        exact ⟨[scanLate], by decide, by decide⟩
      · have h2 : el = ⟨"b", "u2"⟩ := by simpa using h
        exact absurd h2 hne)
